import Mathlib

/-!
Shallow embedding of `src/improter.py` (bulk Weblink importer for the
Capacities API) together with proofs about its specification.

Python strings are modelled as `List Char` (one entry per code point, which
matches Python's `len`/slicing semantics).  File-system paths are modelled by
their component tuple (`PurePath.parts`), which is what `pathlib` compares
when paths are sorted.  The HTTP world is modelled by attaching, to every file the
run could touch, the response the server would give; sleeping is modelled by
recording the requested sleep duration.
-/

namespace Improter

/-! ### Constants (lines 41-45 of the source) -/

def MDTEXT_CAP : Nat := 200000
def TITLE_CAP : Nat := 500
def DESC_CAP : Nat := 1000

/-! ### `clamp` (lines 80-83)

```python
def clamp(s: str, cap: int) -> str:
    if len(s) <= cap:
        return s
    return s[: max(0, cap-1) ] + "…"
```
For `cap : Nat`, Python's `max(0, cap-1)` is Lean's truncated `cap - 1`. -/

def clamp (s : List Char) (cap : Nat) : List Char :=
  if s.length ≤ cap then s
  else s.take (cap - 1) ++ ['…']

/-! ### Python string helpers used by the script -/

/-- The whitespace characters stripped by Python's `str.strip()`
(restricted to the ASCII range, which is all the script ever meets):
space, tab, newline, carriage return, vertical tab, form feed. -/
def pyWs (c : Char) : Bool :=
  c.toNat = 32 || c.toNat = 9 || c.toNat = 10 || c.toNat = 13 ||
    c.toNat = 11 || c.toNat = 12

/-- Python `str.strip()`. -/
def pyStrip (s : List Char) : List Char :=
  ((s.dropWhile pyWs).reverse.dropWhile pyWs).reverse

/-- Python `str.lower()` (ASCII range). -/
def lowerChar (c : Char) : Char :=
  if 'A' ≤ c ∧ c ≤ 'Z' then Char.ofNat (c.toNat + 32) else c

def pyLower (s : List Char) : List Char := s.map lowerChar

def isDigitCh (c : Char) : Bool := 48 ≤ c.toNat && c.toNat ≤ 57

def digitVal (c : Char) : Nat := c.toNat - 48

/-- One step of accumulating a decimal digit. -/
def accDigit (a : Nat) (c : Char) : Nat := a * 10 + digitVal c

/-- Parses the remainder of a run of decimal digits in which single
underscores may appear between digits (Python's integer grammar for
`int(str)`): `prevDigit` records whether the previous character was a
digit (an underscore is legal only right after a digit, and the run must
end in a digit), `acc` is the value of the digits already consumed.
Returns `none` on a malformed run. -/
def digitsGo (prevDigit : Bool) (acc : Nat) : List Char → Option Nat
  | [] => if prevDigit then some acc else none
  | c :: rest =>
      if isDigitCh c then digitsGo true (accDigit acc c) rest
      else if c = '_' && prevDigit then digitsGo false acc rest
      else none

/-- Value of a digit run; the run must start with a digit. -/
def digitsVal (s : List Char) : Option Nat :=
  match s with
  | c :: rest => if isDigitCh c then digitsGo true (digitVal c) rest else none
  | [] => none

/-- Optional sign followed by a digit run. -/
def pySignedDigits : List Char → Option Int
  | [] => none
  | c :: rest =>
      if c = '+' then (digitsVal rest).map Int.ofNat
      else if c = '-' then (digitsVal rest).map (fun n => -(n : Int))
      else (digitsVal (c :: rest)).map Int.ofNat

/-- Python `int(s)` on a string: strips whitespace, then an optional sign and
a digit run.  `none` models a raised `ValueError`. -/
def pyInt (s : List Char) : Option Int :=
  pySignedDigits (pyStrip s)

/-- The decimal digit character for `d` (where `d ≥ 9` yields `'9'`). -/
def digitChar (d : Nat) : Char :=
  match d with
  | 0 => '0' | 1 => '1' | 2 => '2' | 3 => '3' | 4 => '4'
  | 5 => '5' | 6 => '6' | 7 => '7' | 8 => '8' | _ => '9'

/-- Decimal digits of `n`, most significant first, as in Python's `str`. -/
def natDigits (n : Nat) : List Char :=
  if _h : n < 10 then [digitChar n]
  else natDigits (n / 10) ++ [digitChar (n % 10)]
  decreasing_by exact Nat.div_lt_self (by omega) (by omega)

/-- Python `str(i)` for an integer (decimal digits with a leading `-` when
negative), as produced by `str(fallback_seconds)` on line 69. -/
def pyStr (i : Int) : List Char :=
  if i < 0 then '-' :: natDigits i.natAbs else natDigits i.natAbs

/-! ### Configuration loading (lines 109-128)

The environment is a partial map from variable names to Python strings.
`os.getenv(key) or default` yields the default when the variable is unset
or holds the empty string. -/

def envOr (env : String → Option (List Char)) (key : String)
    (dflt : List Char) : List Char :=
  match env key with
  | none => dflt
  | some v => if v = [] then dflt else v

/-- Line 117: `max_files = int(os.getenv("MAX_FILES") or "0")`.
`none` models the uncaught `ValueError`. -/
def maxFilesOf (env : String → Option (List Char)) : Option Int :=
  pyInt (envOr env "MAX_FILES" "0".toList)

/-- Line 118: `sleep_sec = int(os.getenv("SLEEP_SECONDS") or "7")`.
`none` models the uncaught `ValueError`. -/
def sleepSecOf (env : String → Option (List Char)) : Option Int :=
  pyInt (envOr env "SLEEP_SECONDS" "7".toList)

/-- Line 119: the `ADD_FILENAME_HEADER` flag test
`(... or "true").strip().lower() in {"1","true","yes","y"}`. -/
def parseFlag (s : List Char) : Bool :=
  let t := pyLower (pyStrip s)
  t = "1".toList || t = "true".toList || t = "yes".toList || t = "y".toList

/-- Lines 122-123: the optional comma-separated tag list. -/
def tagsOf (env : String → Option (List Char)) : Option (List (List Char)) :=
  let raw := pyStrip (envOr env "TAGS" [])
  let ts := ((raw.splitOn ',').map pyStrip).filter (fun t => t ≠ [])
  if ts = [] then none else some ts

/-- Line 124: the optional description, clamped at load time. -/
def descriptionOf (env : String → Option (List Char)) : Option (List Char) :=
  let d := clamp (pyStrip (envOr env "DESCRIPTION" [])) DESC_CAP
  if d = [] then none else some d

/-- `must_env` (lines 47-52): a required setting; a missing or blank value
produces the diagnostic and `sys.exit(1)`, modelled as `Except.error`. -/
def must_env (env : String → Option (List Char)) (key : String) :
    Except (List Char) (List Char) :=
  let v := pyStrip ((env key).getD [])
  if v = [] then Except.error ("Missing ".toList ++ key.toList ++ " in .env".toList)
  else Except.ok v

/-! ### `rate_sleep` (lines 61-78)

```python
def rate_sleep(resp, fallback_seconds):
    h = ... dict of lowered header names ...
    try:
        remaining = int(h.get("ratelimit-remaining", "1") or "1")
    except ValueError:
        remaining = 1
    try:
        reset_sec = int(h.get("ratelimit-reset", str(fallback_seconds)) or str(fallback_seconds))
    except ValueError:
        reset_sec = fallback_seconds
    if remaining <= 0:
        wait = max(reset_sec, fallback_seconds)
        time.sleep(wait)
    else:
        time.sleep(fallback_seconds)
```
The function is modelled as returning the number of seconds passed to
`time.sleep`.  A response's headers are a list of name/value pairs; the
dict comprehension keeps the last pair for a repeated lowered key. -/

/-- The dict comprehension of line 63 followed by `.get`: lookup in which
the last pair with the given key wins. -/
def dictGet (pairs : List (List Char × List Char)) (key : List Char) :
    Option (List Char) :=
  ((pairs.filter (fun p => p.1 = key)).getLast?).map Prod.snd

def lowerPairs (hdrs : List (List Char × List Char)) :
    List (List Char × List Char) :=
  hdrs.map (fun p => (pyLower p.1, p.2))

/-- Lines 64-67: the parsed `remaining` value. -/
def remainingOf (hdrs : List (List Char × List Char)) : Int :=
  let raw := (dictGet (lowerPairs hdrs) "ratelimit-remaining".toList).getD "1".toList
  (pyInt (if raw = [] then "1".toList else raw)).getD 1

/-- Lines 68-71: the parsed `reset_sec` value. -/
def resetOf (hdrs : List (List Char × List Char)) (fb : Int) : Int :=
  let raw := (dictGet (lowerPairs hdrs) "ratelimit-reset".toList).getD (pyStr fb)
  (pyInt (if raw = [] then pyStr fb else raw)).getD fb

/-- Lines 73-78: the seconds slept after a call. -/
def rate_sleep (hdrs : List (List Char × List Char)) (fb : Int) : Int :=
  if remainingOf hdrs ≤ 0 then max (resetOf hdrs fb) fb else fb

/-! ### The rate limiter as the specification words it (for claim C2) -/

/-- Case-insensitive header lookup, as the spec describes it. -/
def headerCI (hdrs : List (List Char × List Char)) (key : List Char) :
    Option (List Char) :=
  dictGet (lowerPairs hdrs) key

/-- The spec's remaining-calls value: the header parsed as an integer,
defaulting to 1 when absent or unparseable. -/
def remainingSpec (hdrs : List (List Char × List Char)) : Int :=
  match headerCI hdrs "ratelimit-remaining".toList with
  | none => 1
  | some v => (pyInt v).getD 1

/-- The spec's reset value: the header parsed as an integer, defaulting to
the fallback when absent or unparseable. -/
def resetSpec (hdrs : List (List Char × List Char)) (fb : Int) : Int :=
  match headerCI hdrs "ratelimit-reset".toList with
  | none => fb
  | some v => (pyInt v).getD fb

/-- The spec's sleep rule: `max(reset, fallback)` when no calls remain,
otherwise exactly the fallback. -/
def rateSleepSpec (hdrs : List (List Char × List Char)) (fb : Int) : Int :=
  if remainingSpec hdrs ≤ 0 then max (resetSpec hdrs fb) fb else fb

/-! ### The HTTP world and per-file processing (lines 85-107 and 141-186) -/

/-- An HTTP response: status code, headers, body text, and the result of
`r.json().get("id")` — `none` models `r.json()` raising, `some oid` a parsed
body whose `"id"` field is `oid`. -/
structure Resp where
  status : Nat
  hdrs : List (List Char × List Char)
  body : List Char
  jsonId : Option (Option (List Char))
deriving DecidableEq

/-- `requests.Response.ok`: `raise_for_status` raises exactly for status
codes in `[400, 600)`. -/
def respOk (r : Resp) : Bool := !(400 ≤ r.status && r.status < 600)

/-- One file the run could touch: its path as the component tuple
`PurePath.parts` (the sort key: CPython's `PurePath.__lt__` compares the
cased component tuple, `_cparts`, not the path string), its `p.name` and
`p.stem`, its content (`none` models `p.read_text` raising), and the
response the server would give to its request. -/
structure FileEntry where
  parts : List String
  name : List Char
  stem : List Char
  content : Option (List Char)
  resp : Resp
deriving DecidableEq

/-- The configuration the driver loop consumes. -/
structure Config where
  spaceId : List Char
  addHeader : Bool
  sleepSec : Int
  tags : Option (List (List Char))
  description : Option (List Char)
deriving DecidableEq

/-- The JSON payload of `post_weblink` (lines 94-104): optional fields are
included only when the Python value is truthy. -/
structure Payload where
  spaceId : List Char
  url : List Char
  mdText : List Char
  titleOverwrite : Option (List Char)
  descriptionOverwrite : Option (List Char)
  tags : Option (List (List Char))
deriving DecidableEq

def post_weblink_payload (spaceId urlValue title mdText : List Char)
    (tags : Option (List (List Char))) (description : Option (List Char)) :
    Payload :=
  { spaceId := spaceId
    url := urlValue
    mdText := mdText
    titleOverwrite := if title = [] then none else some title
    descriptionOverwrite :=
      match description with
      | some d => if d = [] then none else some d
      | none => none
    tags :=
      match tags with
      | some t => if t = [] then none else some t
      | none => none }

inductive Outcome
  | readError | skipEmpty | httpError | created
deriving DecidableEq

/-- What one loop iteration did: its outcome, the payload sent (`none` when
no network call was made), the seconds slept (`none` when `rate_sleep` was
not called), and the error snippet printed on a failed response. -/
structure StepTrace where
  outcome : Outcome
  request : Option Payload
  sleep : Option Int
  errorShown : Option (List Char)
deriving DecidableEq

/-- Line 158: `f"### Imported: {p.name}\n\n"`. -/
def headerLine (name : List Char) : List Char :=
  "### Imported: ".toList ++ name ++ ['\n', '\n']

/-- One iteration of the driver loop (lines 141-186), excluding the counter
updates. -/
def processFile (cfg : Config) (f : FileEntry) : StepTrace :=
  match f.content with
  | none => ⟨Outcome.readError, none, none, none⟩
  | some raw =>
    let body := pyStrip raw
    if body = [] then ⟨Outcome.skipEmpty, none, none, none⟩
    else
      let md0 := if cfg.addHeader then headerLine f.name ++ body else body
      let mdText := clamp md0 MDTEXT_CAP
      let title := clamp f.stem TITLE_CAP
      let urlValue := "https://www.google.com".toList
      let payload := post_weblink_payload cfg.spaceId urlValue title mdText
        cfg.tags cfg.description
      if respOk f.resp then
        ⟨Outcome.created, some payload,
          some (rate_sleep f.resp.hdrs cfg.sleepSec), none⟩
      else
        ⟨Outcome.httpError, some payload,
          some (rate_sleep f.resp.hdrs cfg.sleepSec),
          some (f.resp.body.take 400)⟩

/-- The payload that `processFile` sends for a readable, non-empty file. -/
def payloadFor (cfg : Config) (f : FileEntry) (raw : List Char) : Payload :=
  post_weblink_payload cfg.spaceId "https://www.google.com".toList
    (clamp f.stem TITLE_CAP)
    (clamp (if cfg.addHeader then headerLine f.name ++ pyStrip raw
            else pyStrip raw) MDTEXT_CAP)
    cfg.tags cfg.description

/-- The counter updates of one iteration (`created`/`skipped`). -/
def stepCounts (cs : Nat × Nat) (o : Outcome) : Nat × Nat :=
  match o with
  | Outcome.readError => (cs.1, cs.2 + 1)
  | Outcome.skipEmpty => (cs.1, cs.2 + 1)
  | Outcome.httpError => cs
  | Outcome.created => (cs.1 + 1, cs.2)

/-- The whole driver loop: final `(created, skipped)`. -/
def runLoop (cfg : Config) (files : List FileEntry) : Nat × Nat :=
  files.foldl (fun cs f => stepCounts cs (processFile cfg f).outcome) (0, 0)

/-- `(created, skipped)` after the first `k` iterations. -/
def countsAfter (cfg : Config) (files : List FileEntry) (k : Nat) : Nat × Nat :=
  runLoop cfg (files.take k)

/-! ### File enumeration (lines 133-135)

```python
files = sorted(vault_path.rglob(glob_pat))
if max_files and len(files) > max_files:
    files = files[:max_files]
```
The recursive glob itself is file-system input and is modelled by the list
of matching entries handed to `enumerate`; `sorted` on `Path` objects
compares their component tuples (tuples of strings, compared elementwise
with a shorter prefix first — exactly the lexicographic order on
`List String`), not their path strings. -/

/-- Python's `l[:m]` also for negative `m` (which counts from the end). -/
def pyTake (l : List FileEntry) (m : Int) : List FileEntry :=
  if m < 0 then l.take (((l.length : Int) + m).toNat) else l.take m.toNat

/-- `Path.__lt__`: lexicographic comparison of the component tuples. -/
def pathLe (a b : FileEntry) : Prop := a.parts ≤ b.parts

instance : DecidableRel pathLe := fun a b => by
  unfold pathLe
  infer_instance

def enumerate (files : List FileEntry) (maxFiles : Int) : List FileEntry :=
  if maxFiles ≠ 0 ∧ ((List.insertionSort pathLe files).length : Int) > maxFiles
  then pyTake (List.insertionSort pathLe files) maxFiles
  else List.insertionSort pathLe files

/-! ### `main` (lines 109-188) -/

/-- How the process ends: a printed diagnostic plus `sys.exit(1)`, an
uncaught exception (also a non-zero exit status), or falling off the end of
`main` with the final counters (exit status 0). -/
inductive RunResult
  | fatal (msg : List Char)
  | crash (msg : List Char)
  | finished (created skipped : Nat)
deriving DecidableEq

def exitNonzero : RunResult → Bool
  | RunResult.finished _ _ => false
  | _ => true

/-- `main`, over an environment, whether the vault path exists, and the
files `rglob` would find (with their contents and responses). -/
def runMain (env : String → Option (List Char)) (rootExists : Bool)
    (files : List FileEntry) : RunResult :=
  match must_env env "CAPACITIES_API_KEY" with
  | Except.error m => RunResult.fatal m
  | Except.ok _token =>
  match must_env env "SPACE_ID" with
  | Except.error m => RunResult.fatal m
  | Except.ok spaceId =>
  match must_env env "VAULT_PATH" with
  | Except.error m => RunResult.fatal m
  | Except.ok _vaultPath =>
  match maxFilesOf env with
  | none => RunResult.crash "ValueError: invalid literal for int, MAX_FILES".toList
  | some maxFiles =>
  match sleepSecOf env with
  | none => RunResult.crash "ValueError: invalid literal for int, SLEEP_SECONDS".toList
  | some sleepSec =>
  let addHeader := parseFlag (envOr env "ADD_FILENAME_HEADER" "true".toList)
  let cfg : Config := ⟨spaceId, addHeader, sleepSec, tagsOf env, descriptionOf env⟩
  if rootExists = false then RunResult.fatal "VAULT_PATH does not exist".toList
  else
    let counts := runLoop cfg (enumerate files maxFiles)
    RunResult.finished counts.1 counts.2

/-! ### Concrete sample worlds used to exercise the theorems -/

/-- An environment whose numeric settings are non-empty but unparseable. -/
def envC3bad : String → Option (List Char) := fun k =>
  if k = "MAX_FILES" then some "abc".toList
  else if k = "SLEEP_SECONDS" then some "xy".toList
  else none

def cfgC4 : Config := ⟨"space".toList, true, 7, none, none⟩

/-- A readable non-empty file answered with `304 Not Modified`: not a 2xx
status, yet `r.ok` is true. -/
def fC4redirect : FileEntry :=
  ⟨["/", "v", "a.md"], "a.md".toList, "a".toList, some "hi".toList,
    ⟨304, [], [], none⟩⟩

/-- A readable non-empty file answered with a 500 error. -/
def fC4fail : FileEntry :=
  ⟨["/", "v", "b.md"], "b.md".toList, "b".toList, some "hi".toList,
    ⟨500, [], "boom".toList, none⟩⟩

def cfgC5 : Config := ⟨"space".toList, true, 7, none, none⟩

/-- A file whose content strips to the empty string. -/
def fC5empty : FileEntry :=
  ⟨["/", "v", "e.md"], "e.md".toList, "e".toList, some "  \n ".toList,
    ⟨200, [], [], none⟩⟩

def cfgC7 : Config := ⟨"space".toList, true, 7, none, none⟩

def fC7 : FileEntry :=
  ⟨["/", "v", "n.md"], "n.md".toList, "n".toList, some "hello world".toList,
    ⟨200, [], [], some (some "id1".toList)⟩⟩

/-- `/v/notes/y.md`: by component tuples it sorts before `/v/notes.old/x.md`
(`"notes" < "notes.old"`), although the full path strings compare the other
way around (`'.' < '/'`). -/
def fC6a : FileEntry :=
  ⟨["/", "v", "notes", "y.md"], "y.md".toList, "y".toList, some "y".toList,
    ⟨200, [], [], none⟩⟩
def fC6b : FileEntry :=
  ⟨["/", "v", "notes.old", "x.md"], "x.md".toList, "x".toList,
    some "x".toList, ⟨200, [], [], none⟩⟩
def fC6c : FileEntry :=
  ⟨["/", "v", "z.md"], "z.md".toList, "z".toList, some "z".toList,
    ⟨200, [], [], none⟩⟩

/-- Three matching files, listed out of order. -/
def filesC6 : List FileEntry := [fC6b, fC6c, fC6a]

def cfgC10 : Config := ⟨"space".toList, true, 7, none, none⟩

def fC10fail : FileEntry :=
  ⟨["/", "v", "w.md"], "w.md".toList, "w".toList, some "zz".toList,
    ⟨429, [], "limit".toList, none⟩⟩

def filesC10 : List FileEntry := [fC5empty, fC10fail]

/-- Required settings present and well-formed, `MAX_FILES` unparseable. -/
def envC8bad : String → Option (List Char) := fun k =>
  if k = "CAPACITIES_API_KEY" then some "tok".toList
  else if k = "SPACE_ID" then some "sp".toList
  else if k = "VAULT_PATH" then some "/v".toList
  else if k = "MAX_FILES" then some "x".toList
  else none

/-- Required settings present and well-formed, numeric settings absent. -/
def envC8good : String → Option (List Char) := fun k =>
  if k = "CAPACITIES_API_KEY" then some "tok".toList
  else if k = "SPACE_ID" then some "sp".toList
  else if k = "VAULT_PATH" then some "/v".toList
  else none

end Improter

instance : IsTotal Improter.FileEntry Improter.pathLe :=
  ⟨fun a b => le_total a.parts b.parts⟩

instance : IsTrans Improter.FileEntry Improter.pathLe :=
  ⟨fun _ _ _ hab hbc => le_trans hab hbc⟩

namespace Improter

/-! ### Facts about `clamp` shared by several claims -/

theorem clamp_of_le {s : List Char} {cap : Nat} (h : s.length ≤ cap) :
    clamp s cap = s := by
  simp [clamp, h]

theorem clamp_of_gt {s : List Char} {cap : Nat} (h : cap < s.length) :
    clamp s cap = s.take (cap - 1) ++ ['…'] := by
  simp [clamp, Nat.not_le.mpr h]

theorem clamp_length_of_gt {s : List Char} {cap : Nat}
    (h1 : 1 ≤ cap) (h : cap < s.length) :
    (clamp s cap).length = cap := by
  rw [clamp_of_gt h]
  simp only [List.length_append, List.length_take, List.length_cons,
    List.length_nil]
  omega

theorem clamp_length_le {s : List Char} {cap : Nat} (h1 : 1 ≤ cap) :
    (clamp s cap).length ≤ cap := by
  by_cases h : s.length ≤ cap
  · rw [clamp_of_le h]; exact h
  · rw [clamp_length_of_gt h1 (Nat.not_le.mp h)]

/-! ### The `str`/`int` round trip used by `rate_sleep`'s reset default -/

theorem digitChar_isDigit {d : Nat} (h : d < 10) :
    isDigitCh (digitChar d) = true := by
  interval_cases d <;> rfl

theorem digitVal_digitChar {d : Nat} (h : d < 10) :
    digitVal (digitChar d) = d := by
  interval_cases d <;> rfl

theorem pyWs_of_digit {c : Char} (h : isDigitCh c = true) : pyWs c = false := by
  simp only [isDigitCh, Bool.and_eq_true, decide_eq_true_eq] at h
  simp only [pyWs, Bool.or_eq_false_iff, decide_eq_false_iff_not]
  omega

theorem digit_ne_plus {c : Char} (h : isDigitCh c = true) : ¬(c = '+') := by
  intro e; subst e; exact absurd h (by decide)

theorem digit_ne_minus {c : Char} (h : isDigitCh c = true) : ¬(c = '-') := by
  intro e; subst e; exact absurd h (by decide)

theorem natDigits_ne_nil (n : Nat) : natDigits n ≠ [] := by
  rw [natDigits]
  split
  · simp
  · simp

theorem natDigits_digits (n : Nat) :
    ∀ c ∈ natDigits n, isDigitCh c = true := by
  induction n using Nat.strong_induction_on with
  | _ n ih =>
    rw [natDigits]
    split
    · next h =>
      intro c hc
      simp only [List.mem_singleton] at hc
      subst hc
      exact digitChar_isDigit h
    · next h =>
      intro c hc
      rw [List.mem_append] at hc
      rcases hc with hc | hc
      · exact ih (n / 10) (Nat.div_lt_self (by omega) (by omega)) c hc
      · simp only [List.mem_singleton] at hc
        subst hc
        exact digitChar_isDigit (Nat.mod_lt _ (by omega))

theorem foldl_natDigits (n : Nat) : ∀ acc : Nat,
    (natDigits n).foldl accDigit acc = acc * 10 ^ (natDigits n).length + n := by
  induction n using Nat.strong_induction_on with
  | _ n ih =>
    intro acc
    rw [natDigits]
    split
    · next h =>
      simp only [List.foldl_cons, List.foldl_nil, List.length_singleton,
        accDigit, digitVal_digitChar h, pow_one]
    · next h =>
      rw [List.foldl_append, ih (n / 10) (Nat.div_lt_self (by omega) (by omega))]
      simp only [List.foldl_cons, List.foldl_nil, List.length_append,
        List.length_singleton, accDigit, digitVal_digitChar (Nat.mod_lt n (by omega))]
      calc (acc * 10 ^ (natDigits (n / 10)).length + n / 10) * 10 + n % 10
          = acc * (10 ^ (natDigits (n / 10)).length * 10) +
              (10 * (n / 10) + n % 10) := by ring
        _ = acc * 10 ^ ((natDigits (n / 10)).length + 1) + n := by
              rw [← pow_succ, Nat.div_add_mod]

theorem digitsGo_digits : ∀ ds : List Char,
    (∀ c ∈ ds, isDigitCh c = true) → ∀ acc : Nat,
    digitsGo true acc ds = some (ds.foldl accDigit acc) := by
  intro ds
  induction ds with
  | nil => intro _ _; rfl
  | cons c rest ih =>
    intro h acc
    have hc : isDigitCh c = true := h c (by simp)
    have key : digitsGo true acc (c :: rest) =
        digitsGo true (accDigit acc c) rest := by
      simp [digitsGo, hc]
    rw [key, List.foldl_cons]
    exact ih (fun d hd => h d (by simp [hd])) _

theorem digitsVal_digits (ds : List Char)
    (h : ∀ c ∈ ds, isDigitCh c = true) (hne : ds ≠ []) :
    digitsVal ds = some (ds.foldl accDigit 0) := by
  cases ds with
  | nil => exact absurd rfl hne
  | cons c rest =>
    have hc : isDigitCh c = true := h c (by simp)
    have key : digitsVal (c :: rest) = digitsGo true (digitVal c) rest := by
      simp [digitsVal, hc]
    rw [key, digitsGo_digits rest (fun d hd => h d (by simp [hd])),
      List.foldl_cons]
    simp [accDigit]

theorem digitsVal_natDigits (n : Nat) : digitsVal (natDigits n) = some n := by
  rw [digitsVal_digits _ (natDigits_digits n) (natDigits_ne_nil n),
    foldl_natDigits]
  simp

theorem dropWhile_pyWs_eq_self {l : List Char}
    (h : ∀ c ∈ l, pyWs c = false) : l.dropWhile pyWs = l := by
  cases l with
  | nil => rfl
  | cons c rest => simp [List.dropWhile_cons, h c (by simp)]

theorem pyStrip_eq_self {l : List Char}
    (h : ∀ c ∈ l, pyWs c = false) : pyStrip l = l := by
  unfold pyStrip
  rw [dropWhile_pyWs_eq_self h,
    dropWhile_pyWs_eq_self (fun c hc => h c (List.mem_reverse.mp hc)),
    List.reverse_reverse]

theorem pyInt_pyStr (i : Int) : pyInt (pyStr i) = some i := by
  obtain ⟨c, rest, hcr⟩ : ∃ c rest, natDigits i.natAbs = c :: rest := by
    cases h : natDigits i.natAbs with
    | nil => exact absurd h (natDigits_ne_nil _)
    | cons c rest => exact ⟨c, rest, rfl⟩
  have hc : isDigitCh c = true :=
    natDigits_digits i.natAbs c (by rw [hcr]; simp)
  have hnw : ∀ d ∈ natDigits i.natAbs, pyWs d = false :=
    fun d hd => pyWs_of_digit (natDigits_digits i.natAbs d hd)
  have hdv : digitsVal (c :: rest) = some i.natAbs := by
    rw [← hcr]
    exact digitsVal_natDigits _
  unfold pyInt pyStr
  by_cases h : i < 0
  · rw [if_pos h, pyStrip_eq_self]
    · rw [hcr]
      simp only [pySignedDigits, hdv]
      simp
      rw [abs_of_neg h, neg_neg]
    · intro d hd
      rcases List.mem_cons.mp hd with rfl | hd
      · rfl
      · exact hnw d hd
  · rw [if_neg h, pyStrip_eq_self hnw, hcr]
    simp only [pySignedDigits, hdv]
    simp [digit_ne_plus hc, digit_ne_minus hc]
    omega

/-! ### `rate_sleep` agrees with the spec's description -/

theorem remainingOf_eq (hdrs : List (List Char × List Char)) :
    remainingOf hdrs = remainingSpec hdrs := by
  unfold remainingOf remainingSpec headerCI
  cases dictGet (lowerPairs hdrs) "ratelimit-remaining".toList with
  | none => decide
  | some v =>
    by_cases hv : v = []
    · subst hv; decide
    · simp only [Option.getD_some, if_neg hv]

theorem resetOf_eq (hdrs : List (List Char × List Char)) (fb : Int) :
    resetOf hdrs fb = resetSpec hdrs fb := by
  unfold resetOf resetSpec headerCI
  cases dictGet (lowerPairs hdrs) "ratelimit-reset".toList with
  | none =>
    simp only [Option.getD_none, ite_self, pyInt_pyStr, Option.getD_some]
  | some v =>
    by_cases hv : v = []
    · subst hv
      have h0 : pyInt ([] : List Char) = none := rfl
      simp [pyInt_pyStr, h0]
    · simp only [Option.getD_some, if_neg hv]

/-! ### How one loop iteration reduces -/

theorem processFile_read_error (cfg : Config) (f : FileEntry)
    (hc : f.content = none) :
    processFile cfg f = ⟨Outcome.readError, none, none, none⟩ := by
  unfold processFile
  rw [hc]

theorem processFile_skip (cfg : Config) (f : FileEntry) (raw : List Char)
    (hc : f.content = some raw) (he : pyStrip raw = []) :
    processFile cfg f = ⟨Outcome.skipEmpty, none, none, none⟩ := by
  unfold processFile
  rw [hc]
  simp [he]

theorem processFile_eq_of_ok (cfg : Config) (f : FileEntry) (raw : List Char)
    (hc : f.content = some raw) (hne : pyStrip raw ≠ [])
    (hok : respOk f.resp = true) :
    processFile cfg f = ⟨Outcome.created, some (payloadFor cfg f raw),
      some (rate_sleep f.resp.hdrs cfg.sleepSec), none⟩ := by
  unfold processFile payloadFor
  rw [hc]
  simp [hne, hok]

theorem processFile_eq_of_error (cfg : Config) (f : FileEntry) (raw : List Char)
    (hc : f.content = some raw) (hne : pyStrip raw ≠ [])
    (hok : respOk f.resp = false) :
    processFile cfg f = ⟨Outcome.httpError, some (payloadFor cfg f raw),
      some (rate_sleep f.resp.hdrs cfg.sleepSec),
      some (f.resp.body.take 400)⟩ := by
  unfold processFile payloadFor
  rw [hc]
  simp [hne, hok]

theorem stepCounts_sum_le (cs : Nat × Nat) (o : Outcome) :
    (stepCounts cs o).1 + (stepCounts cs o).2 ≤ cs.1 + cs.2 + 1 := by
  cases o <;> simp [stepCounts] <;> omega

theorem foldl_counts_le (cfg : Config) : ∀ (l : List FileEntry) (cs : Nat × Nat),
    (l.foldl (fun cs f => stepCounts cs (processFile cfg f).outcome) cs).1 +
      (l.foldl (fun cs f => stepCounts cs (processFile cfg f).outcome) cs).2 ≤
      cs.1 + cs.2 + l.length := by
  intro l
  induction l with
  | nil => intro cs; simp
  | cons f rest ih =>
    intro cs
    rw [List.foldl_cons, List.length_cons]
    have h1 := ih (stepCounts cs (processFile cfg f).outcome)
    have h2 := stepCounts_sum_le cs (processFile cfg f).outcome
    omega

end Improter

/-- C1: for a cap of at least one character (all caps in the program are
200000, 500 and 1000), `clamp` returns strings longer than the cap truncated
to exactly the cap with a final ellipsis character, and returns strings of
length at most the cap unchanged. -/
theorem C1_clamp_cap (s : List Char) (cap : Nat) (h1 : 1 ≤ cap) :
    (cap < s.length →
      (Improter.clamp s cap).length = cap ∧
      (Improter.clamp s cap).getLast? = some '…') ∧
    (s.length ≤ cap → Improter.clamp s cap = s) := by
  constructor
  · intro h
    refine ⟨Improter.clamp_length_of_gt h1 h, ?_⟩
    rw [Improter.clamp_of_gt h]
    exact List.getLast?_concat _
  · intro h
    exact Improter.clamp_of_le h

/-- Witness for C1 at a concrete input: cap 3, the five-character string
`"hello"` clamps to length 3 ending in the ellipsis. -/
theorem C1_clamp_cap_witness :
    (Improter.clamp "hello".toList 3).length = 3 ∧
    (Improter.clamp "hello".toList 3).getLast? = some '…' :=
  (C1_clamp_cap "hello".toList 3 (by decide)).1 (by decide)

/-- C9: `clamp` is idempotent for every cap of at least 1. -/
theorem C9_clamp_idempotent (s : List Char) (cap : Nat) (h1 : 1 ≤ cap) :
    Improter.clamp (Improter.clamp s cap) cap = Improter.clamp s cap := by
  by_cases h : s.length ≤ cap
  · rw [Improter.clamp_of_le h, Improter.clamp_of_le h]
  · exact Improter.clamp_of_le
      (le_of_eq (Improter.clamp_length_of_gt h1 (Nat.not_le.mp h)))

/-- Witness for C9 at a concrete input. -/
theorem C9_clamp_idempotent_witness :
    Improter.clamp (Improter.clamp "hello".toList 3) 3 =
      Improter.clamp "hello".toList 3 :=
  C9_clamp_idempotent "hello".toList 3 (by decide)

/-- C2: for every response header list and fallback value, `rate_sleep`
computes exactly what the spec describes: the remaining-calls and reset
headers are looked up case-insensitively and parsed as integers with
defaults 1 and the fallback respectively; a remaining count ≤ 0 sleeps
`max(reset, fallback)` seconds, anything else sleeps exactly the fallback.
In particular a response with no rate-limit headers sleeps the fallback. -/
theorem C2_rate_sleep_matches_spec
    (hdrs : List (List Char × List Char)) (fb : Int) :
    Improter.rate_sleep hdrs fb = Improter.rateSleepSpec hdrs fb ∧
    Improter.rate_sleep [] fb = fb := by
  constructor
  · unfold Improter.rate_sleep Improter.rateSleepSpec
    rw [Improter.remainingOf_eq, Improter.resetOf_eq]
  · rfl

/-- C3 counterexample: with `MAX_FILES=abc` and `SLEEP_SECONDS=xy` the
loader does not fall back to the defaults 0 and 7 — `int()` raises an
uncaught `ValueError` (modelled as `none`). -/
theorem C3_counterexample :
    Improter.maxFilesOf Improter.envC3bad = none ∧
    Improter.maxFilesOf Improter.envC3bad ≠ some 0 ∧
    Improter.sleepSecOf Improter.envC3bad = none ∧
    Improter.sleepSecOf Improter.envC3bad ≠ some 7 := by
  decide

/-- C3 (amended): the numeric settings fall back to their documented
defaults (0 for `MAX_FILES`, 7 for `SLEEP_SECONDS`) only when the variable
is absent or empty; a non-empty value that does not parse as an integer
raises an uncaught `ValueError` instead of falling back. -/
theorem C3_numeric_defaults (env : String → Option (List Char)) :
    ((env "MAX_FILES" = none ∨ env "MAX_FILES" = some []) →
      Improter.maxFilesOf env = some 0) ∧
    ((env "SLEEP_SECONDS" = none ∨ env "SLEEP_SECONDS" = some []) →
      Improter.sleepSecOf env = some 7) ∧
    (∀ v, env "MAX_FILES" = some v → v ≠ [] → Improter.pyInt v = none →
      Improter.maxFilesOf env = none) ∧
    (∀ v, env "SLEEP_SECONDS" = some v → v ≠ [] → Improter.pyInt v = none →
      Improter.sleepSecOf env = none) := by
  refine ⟨?_, ?_, ?_, ?_⟩
  · rintro (h | h) <;>
      (unfold Improter.maxFilesOf Improter.envOr; rw [h]; decide)
  · rintro (h | h) <;>
      (unfold Improter.sleepSecOf Improter.envOr; rw [h]; decide)
  · intro v hv hne hp
    unfold Improter.maxFilesOf Improter.envOr
    rw [hv]
    show Improter.pyInt (if v = [] then "0".toList else v) = none
    rw [if_neg hne]
    exact hp
  · intro v hv hne hp
    unfold Improter.sleepSecOf Improter.envOr
    rw [hv]
    show Improter.pyInt (if v = [] then "7".toList else v) = none
    rw [if_neg hne]
    exact hp

/-- Witness for C3's amended claim: absent variables give the defaults. -/
theorem C3_numeric_defaults_witness :
    Improter.maxFilesOf (fun _ => none) = some 0 ∧
    Improter.sleepSecOf (fun _ => none) = some 7 :=
  ⟨(C3_numeric_defaults (fun _ => none)).1 (Or.inl rfl),
   (C3_numeric_defaults (fun _ => none)).2.1 (Or.inl rfl)⟩

/-- C5: a readable file whose content strips to the empty string is skipped:
the skip counter goes up by one, no request is built and no sleep happens. -/
theorem C5_empty_file_skipped (cfg : Improter.Config) (f : Improter.FileEntry)
    (raw : List Char) (hc : f.content = some raw)
    (he : Improter.pyStrip raw = []) (cs : Nat × Nat) :
    (Improter.processFile cfg f).outcome = Improter.Outcome.skipEmpty ∧
    (Improter.processFile cfg f).request = none ∧
    (Improter.processFile cfg f).sleep = none ∧
    Improter.stepCounts cs (Improter.processFile cfg f).outcome =
      (cs.1, cs.2 + 1) := by
  rw [Improter.processFile_skip cfg f raw hc he]
  exact ⟨rfl, rfl, rfl, rfl⟩

/-- Witness for C5 on a concrete whitespace-only file. -/
theorem C5_empty_file_skipped_witness :
    (Improter.processFile Improter.cfgC5 Improter.fC5empty).outcome =
      Improter.Outcome.skipEmpty ∧
    (Improter.processFile Improter.cfgC5 Improter.fC5empty).request = none ∧
    (Improter.processFile Improter.cfgC5 Improter.fC5empty).sleep = none ∧
    Improter.stepCounts (3, 4)
      (Improter.processFile Improter.cfgC5 Improter.fC5empty).outcome =
      ((3, 4).1, (3, 4).2 + 1) :=
  C5_empty_file_skipped Improter.cfgC5 Improter.fC5empty "  \n ".toList rfl
    (by decide) (3, 4)

/-- C4 counterexample: a `304 Not Modified` response is not a 2xx status,
yet the driver loop counts the file as created (the code tests `r.ok`,
which is true for every status below 400). -/
theorem C4_counterexample :
    ¬(200 ≤ Improter.fC4redirect.resp.status ∧
        Improter.fC4redirect.resp.status < 300) ∧
    (Improter.processFile Improter.cfgC4 Improter.fC4redirect).outcome =
      Improter.Outcome.created ∧
    Improter.stepCounts (0, 0)
      (Improter.processFile Improter.cfgC4 Improter.fC4redirect).outcome =
      (1, 0) := by
  decide

/-- C4 (amended): failure means `r.ok` is false, i.e. a status in 400-599
(not "non-2xx"): such a response prints a 400-character error snippet,
still sleeps through the rate limiter, and leaves both counters unchanged;
an ok response (status outside 400-599) increments the created count by
exactly one and also sleeps. -/
theorem C4_failure_handling (cfg : Improter.Config) (f : Improter.FileEntry)
    (raw : List Char) (cs : Nat × Nat)
    (hc : f.content = some raw) (hne : Improter.pyStrip raw ≠ []) :
    (Improter.respOk f.resp = false →
      (Improter.processFile cfg f).outcome = Improter.Outcome.httpError ∧
      (Improter.processFile cfg f).errorShown = some (f.resp.body.take 400) ∧
      (Improter.processFile cfg f).sleep =
        some (Improter.rate_sleep f.resp.hdrs cfg.sleepSec) ∧
      Improter.stepCounts cs (Improter.processFile cfg f).outcome = cs) ∧
    (Improter.respOk f.resp = true →
      (Improter.processFile cfg f).outcome = Improter.Outcome.created ∧
      (Improter.processFile cfg f).sleep =
        some (Improter.rate_sleep f.resp.hdrs cfg.sleepSec) ∧
      Improter.stepCounts cs (Improter.processFile cfg f).outcome =
        (cs.1 + 1, cs.2)) ∧
    (Improter.respOk f.resp = false ↔
      400 ≤ f.resp.status ∧ f.resp.status < 600) := by
  refine ⟨?_, ?_, ?_⟩
  · intro hok
    rw [Improter.processFile_eq_of_error cfg f raw hc hne hok]
    exact ⟨rfl, rfl, rfl, rfl⟩
  · intro hok
    rw [Improter.processFile_eq_of_ok cfg f raw hc hne hok]
    exact ⟨rfl, rfl, rfl⟩
  · simp [Improter.respOk]

/-- Witness for C4's amended claim on a concrete 500 response. -/
theorem C4_failure_handling_witness :
    (Improter.processFile Improter.cfgC4 Improter.fC4fail).outcome =
      Improter.Outcome.httpError ∧
    (Improter.processFile Improter.cfgC4 Improter.fC4fail).errorShown =
      some (Improter.fC4fail.resp.body.take 400) ∧
    (Improter.processFile Improter.cfgC4 Improter.fC4fail).sleep =
      some (Improter.rate_sleep Improter.fC4fail.resp.hdrs
        Improter.cfgC4.sleepSec) ∧
    Improter.stepCounts (0, 0)
      (Improter.processFile Improter.cfgC4 Improter.fC4fail).outcome = (0, 0) :=
  (C4_failure_handling Improter.cfgC4 Improter.fC4fail "hi".toList (0, 0) rfl
    (by decide)).1 (by decide)

/-- C7: with the header option on, the transmitted body of a non-empty file
is the clamp of `"### Imported: <filename>\n\n"` followed by the trimmed
content: when that text fits in the body cap the body is exactly it, and the
header line plus blank line is a prefix of the body whenever the cap has not
already cut into the header itself. -/
theorem C7_header_prepended (cfg : Improter.Config) (f : Improter.FileEntry)
    (raw : List Char) (hc : f.content = some raw)
    (hne : Improter.pyStrip raw ≠ []) (hah : cfg.addHeader = true)
    (pl : Improter.Payload)
    (hpl : (Improter.processFile cfg f).request = some pl) :
    pl.mdText = Improter.clamp
      (Improter.headerLine f.name ++ Improter.pyStrip raw)
      Improter.MDTEXT_CAP ∧
    ((Improter.headerLine f.name ++ Improter.pyStrip raw).length ≤
        Improter.MDTEXT_CAP →
      pl.mdText = Improter.headerLine f.name ++ Improter.pyStrip raw) ∧
    ((Improter.headerLine f.name).length < Improter.MDTEXT_CAP →
      Improter.headerLine f.name <+: pl.mdText) := by
  have hplv : pl = Improter.payloadFor cfg f raw := by
    by_cases hok : Improter.respOk f.resp = true
    · rw [Improter.processFile_eq_of_ok cfg f raw hc hne hok] at hpl
      exact (Option.some_inj.mp hpl).symm
    · rw [Improter.processFile_eq_of_error cfg f raw hc hne
        (by revert hok; cases Improter.respOk f.resp <;> simp)] at hpl
      exact (Option.some_inj.mp hpl).symm
  subst hplv
  have hmd : (Improter.payloadFor cfg f raw).mdText =
      Improter.clamp (Improter.headerLine f.name ++ Improter.pyStrip raw)
        Improter.MDTEXT_CAP := by
    unfold Improter.payloadFor Improter.post_weblink_payload
    simp [hah]
  refine ⟨hmd, ?_, ?_⟩
  · intro hlen
    rw [hmd, Improter.clamp_of_le hlen]
  · intro hH
    rw [hmd]
    by_cases hfull : (Improter.headerLine f.name ++ Improter.pyStrip raw).length ≤
        Improter.MDTEXT_CAP
    · rw [Improter.clamp_of_le hfull]
      exact List.prefix_append _ _
    · rw [Improter.clamp_of_gt (Nat.not_le.mp hfull)]
      have h1 : Improter.headerLine f.name <+:
          (Improter.headerLine f.name ++ Improter.pyStrip raw).take
            (Improter.MDTEXT_CAP - 1) := by
        rw [List.take_append_eq_append_take,
          List.take_of_length_le
            (by omega : (Improter.headerLine f.name).length ≤
              Improter.MDTEXT_CAP - 1)]
        exact List.prefix_append _ _
      exact h1.trans (List.prefix_append _ _)

/-- Witness for C7 on a concrete file. -/
theorem C7_header_prepended_witness :
    Improter.headerLine Improter.fC7.name <+:
      (Improter.payloadFor Improter.cfgC7 Improter.fC7
        "hello world".toList).mdText :=
  (C7_header_prepended Improter.cfgC7 Improter.fC7 "hello world".toList rfl
    (by decide) rfl
    (Improter.payloadFor Improter.cfgC7 Improter.fC7 "hello world".toList)
    (by decide)).2.2 (by decide)

/-- C6: the enumerator's output is always sorted by path (in `pathlib`'s
order: lexicographic on the component tuples); when a positive maximum below
the match count is configured the output is exactly the first `maxFiles`
entries of the sorted list; and without truncation it is a permutation of
the matches (the sorted list itself). -/
theorem C6_sorted_truncation (files : List Improter.FileEntry) (m : Int) :
    List.Sorted (fun a b : List String => a ≤ b)
      ((Improter.enumerate files m).map (fun f => f.parts)) ∧
    (0 < m → m < (files.length : Int) →
      Improter.enumerate files m =
        (List.insertionSort Improter.pathLe files).take m.toNat) ∧
    (¬(m ≠ 0 ∧ (files.length : Int) > m) →
      (Improter.enumerate files m).Perm files) := by
  have hsorted : List.Sorted Improter.pathLe
      (List.insertionSort Improter.pathLe files) :=
    List.sorted_insertionSort Improter.pathLe files
  have hlen : (List.insertionSort Improter.pathLe files).length = files.length :=
    (List.perm_insertionSort Improter.pathLe files).length_eq
  refine ⟨?_, ?_, ?_⟩
  · have hsub : List.Sublist (Improter.enumerate files m)
        (List.insertionSort Improter.pathLe files) := by
      unfold Improter.enumerate
      split
      · unfold Improter.pyTake
        split
        · exact List.take_sublist _ _
        · exact List.take_sublist _ _
      · exact List.Sublist.refl _
    have hpw : List.Pairwise Improter.pathLe (Improter.enumerate files m) :=
      List.Pairwise.sublist hsub hsorted
    rw [List.Sorted, List.pairwise_map]
    exact hpw
  · intro h0 hlt
    unfold Improter.enumerate
    rw [if_pos ⟨by omega, by rw [hlen]; exact hlt⟩]
    unfold Improter.pyTake
    rw [if_neg (by omega : ¬ m < 0)]
  · intro hcond
    unfold Improter.enumerate
    rw [if_neg]
    · exact List.perm_insertionSort Improter.pathLe files
    · intro hgt
      exact hcond ⟨hgt.1, by rw [← hlen]; exact hgt.2⟩

/-- Witness for C6: three matching files with `MAX_FILES=2` yield exactly
the first two entries of the sorted list, in sorted order. -/
theorem C6_sorted_truncation_witness :
    List.Sorted (fun a b : List String => a ≤ b)
      ((Improter.enumerate Improter.filesC6 2).map (fun f => f.parts)) ∧
    Improter.enumerate Improter.filesC6 2 =
      (List.insertionSort Improter.pathLe Improter.filesC6).take
        (2 : Int).toNat :=
  ⟨(C6_sorted_truncation Improter.filesC6 2).1,
   (C6_sorted_truncation Improter.filesC6 2).2.1 (by decide) (by decide)⟩

/-- C8 counterexample: with all three required settings present and
non-blank and the root existing, an unparseable `MAX_FILES` still ends the
process with a non-zero status (an uncaught `ValueError`), so "non-zero
exactly when required configuration is missing or the root is absent" does
not hold. -/
theorem C8_counterexample :
    (Improter.must_env Improter.envC8bad "CAPACITIES_API_KEY").isOk = true ∧
    (Improter.must_env Improter.envC8bad "SPACE_ID").isOk = true ∧
    (Improter.must_env Improter.envC8bad "VAULT_PATH").isOk = true ∧
    Improter.exitNonzero (Improter.runMain Improter.envC8bad true []) = true := by
  decide

/-- C8 (amended): the process exits non-zero exactly when a required setting
is missing or blank, a numeric setting fails to parse (uncaught
`ValueError`), or the root path does not exist; when none of these hold it
finishes with exit status zero regardless of the per-file outcomes. -/
theorem C8_exit_status (env : String → Option (List Char)) (rootExists : Bool)
    (files : List Improter.FileEntry) :
    (Improter.exitNonzero (Improter.runMain env rootExists files) = true ↔
      ((Improter.must_env env "CAPACITIES_API_KEY").isOk = false ∨
       (Improter.must_env env "SPACE_ID").isOk = false ∨
       (Improter.must_env env "VAULT_PATH").isOk = false ∨
       Improter.maxFilesOf env = none ∨
       Improter.sleepSecOf env = none ∨
       rootExists = false)) ∧
    ((Improter.must_env env "CAPACITIES_API_KEY").isOk = true →
     (Improter.must_env env "SPACE_ID").isOk = true →
     (Improter.must_env env "VAULT_PATH").isOk = true →
     ∀ mf sl, Improter.maxFilesOf env = some mf →
       Improter.sleepSecOf env = some sl → rootExists = true →
       Improter.exitNonzero (Improter.runMain env rootExists files) = false) := by
  unfold Improter.runMain
  cases h1 : Improter.must_env env "CAPACITIES_API_KEY" with
  | error m1 => simp [Improter.exitNonzero, Except.isOk, Except.toBool]
  | ok v1 =>
    cases h2 : Improter.must_env env "SPACE_ID" with
    | error m2 => simp [Improter.exitNonzero, Except.isOk, Except.toBool]
    | ok v2 =>
      cases h3 : Improter.must_env env "VAULT_PATH" with
      | error m3 => simp [Improter.exitNonzero, Except.isOk, Except.toBool]
      | ok v3 =>
        cases h4 : Improter.maxFilesOf env with
        | none => simp [Improter.exitNonzero, Except.isOk, Except.toBool]
        | some mf =>
          cases h5 : Improter.sleepSecOf env with
          | none => simp [Improter.exitNonzero, Except.isOk, Except.toBool]
          | some sl =>
            cases rootExists with
            | false => simp [Improter.exitNonzero, Except.isOk, Except.toBool]
            | true => simp [Improter.exitNonzero, Except.isOk, Except.toBool]

/-- Witness for C8's amended claim: a well-formed environment over an
existing root finishes with exit status zero. -/
theorem C8_exit_status_witness :
    Improter.exitNonzero (Improter.runMain Improter.envC8good true []) = false :=
  (C8_exit_status Improter.envC8good true []).2 (by decide) (by decide)
    (by decide) 0 7 (by decide) (by decide) rfl

/-- C10: after any number of iterations the created and skipped counters sum
to at most the number of files processed (hence at most the number
enumerated); each iteration changes at most one counter, by at most one; and
a readable non-empty file whose response is not ok changes neither. -/
theorem C10_counter_invariant (cfg : Improter.Config)
    (files : List Improter.FileEntry) (k : Nat) :
    (Improter.countsAfter cfg files k).1 +
      (Improter.countsAfter cfg files k).2 ≤ (files.take k).length ∧
    (files.take k).length ≤ files.length ∧
    (∀ (cs : Nat × Nat) (o : Improter.Outcome),
      Improter.stepCounts cs o = cs ∨
      Improter.stepCounts cs o = (cs.1 + 1, cs.2) ∨
      Improter.stepCounts cs o = (cs.1, cs.2 + 1)) ∧
    (∀ (cs : Nat × Nat) (f : Improter.FileEntry) (raw : List Char),
      f.content = some raw → Improter.pyStrip raw ≠ [] →
      Improter.respOk f.resp = false →
      Improter.stepCounts cs (Improter.processFile cfg f).outcome = cs) := by
  refine ⟨?_, ?_, ?_, ?_⟩
  · have h := Improter.foldl_counts_le cfg (files.take k) (0, 0)
    unfold Improter.countsAfter Improter.runLoop
    omega
  · rw [List.length_take]
    exact min_le_right _ _
  · intro cs o
    cases o <;> simp [Improter.stepCounts]
  · intro cs f raw hc hne hok
    rw [Improter.processFile_eq_of_error cfg f raw hc hne hok]
    rfl

/-- Witness for C10 on a concrete two-file run (one empty file, one 429
response): the counters sum to at most the file count, and the failing
file leaves the counters untouched. -/
theorem C10_counter_invariant_witness :
    (Improter.countsAfter Improter.cfgC10 Improter.filesC10 2).1 +
      (Improter.countsAfter Improter.cfgC10 Improter.filesC10 2).2 ≤
      (Improter.filesC10.take 2).length ∧
    Improter.stepCounts (5, 6)
      (Improter.processFile Improter.cfgC10 Improter.fC10fail).outcome =
      (5, 6) :=
  ⟨(C10_counter_invariant Improter.cfgC10 Improter.filesC10 2).1,
   (C10_counter_invariant Improter.cfgC10 Improter.filesC10 2).2.2.2 (5, 6)
     Improter.fC10fail "zz".toList rfl (by decide) (by decide)⟩
